import Mathlib

/-!
Verification of the GPU-mirrored point render deque
(`src/engine/client_util/src/renderer/deque.rs`).

The Rust type `PointRenderDeque<V>` keeps a host `VecDeque<V>` together with a
GPU vertex buffer mirroring its content, two cursors `tail`/`head` into the GPU
ring, the GPU ring `capacity`, and two counters `pushed`/`popped` recording
operations since the last sync.  `buffer(gl)` reconciles the GPU buffer with
the host queue (growth path, incremental path, or nothing), and
`PointRenderDequeBinding::draw` issues one or two range draws over the occupied
GPU range.

The shallow embedding below represents the GPU buffer as a function
`Nat → Option V` from element index to content (`none` = never written),
GPU uploads (`buffer_sub_data` calls) as a list of `(element offset, data)`
pairs, and machine arithmetic on `usize` as `Nat` (all quantities involved are
tiny compared to `2 ^ 64`, and the source's `& (capacity - 1)` masking is kept
as `Nat.land`, exactly as written).
-/

namespace RenderDeque

/-- `STARTING_CAP` from the source: initial host `VecDeque` capacity,
one less than a power of two. -/
def STARTING_CAP : Nat := 1023

/-- The hard cap on the host queue length in `push_back`. -/
def HARD_CAP : Nat := 1000000

/-- State of a `PointRenderDeque<V>`:
`capacity`, `tail`, `head` are the GPU-side fields; `buffer` is the host
`VecDeque` content, front first; `hostCap` is the host `VecDeque`'s allocated
capacity (the value `buffer.capacity()` returns); `popped`/`pushed` are the
delta counters; `gpu` is the GPU buffer content by element index. -/
structure DequeState (V : Type) where
  capacity : Nat
  tail : Nat
  head : Nat
  buffer : List V
  hostCap : Nat
  popped : Nat
  pushed : Nat
  gpu : Nat → Option V

/-- State built by `PointRenderDeque::new`: everything empty, GPU capacity 0,
host `VecDeque` allocated with capacity `STARTING_CAP`, GPU buffer unwritten. -/
def initState (V : Type) : DequeState V :=
  { capacity := 0, tail := 0, head := 0, buffer := [],
    hostCap := STARTING_CAP, popped := 0, pushed := 0, gpu := fun _ => none }

/-- Allocation policy of Rust's `VecDeque` that the source relies on (its sync
asserts `buffer.capacity() + 1` is a power of two): the usable capacity is one
less than the power-of-two internal ring size, and pushing into a full deque
doubles the internal ring. -/
def hostGrow (len cap : Nat) : Nat :=
  if len < cap then cap else 2 * (cap + 1) - 1

/-- `PointRenderDeque::push_back`: a silent no-op at the hard cap, otherwise
increments `pushed` and appends at the back (growing the host allocation). -/
def push_back {V : Type} (s : DequeState V) (v : V) : DequeState V :=
  if HARD_CAP ≤ s.buffer.length then s
  else
    { s with pushed := s.pushed + 1,
             buffer := s.buffer ++ [v],
             hostCap := hostGrow s.buffer.length s.hostCap }

/-- `PointRenderDeque::pop_front`: increments `popped`, then pops the front and
unwraps.  The second component is the returned element; `none` models the
panic of `unwrap()` on an empty queue.  The first component is the state at
that point (the counter increment happens before the unwrap). -/
def pop_front_step {V : Type} (s : DequeState V) : DequeState V × Option V :=
  let s1 := { s with popped := s.popped + 1 }
  match s.buffer with
  | [] => (s1, none)
  | v :: rest => ({ s1 with buffer := rest }, some v)

/-- `PointRenderDeque::front`. -/
def front {V : Type} (s : DequeState V) : Option V :=
  s.buffer.head?

/-- A single `buffer_sub_data` call: write `data` into the GPU buffer starting
at element offset `off`. -/
def writeGpu {V : Type} (g : Nat → Option V) (off : Nat) (data : List V) :
    Nat → Option V :=
  fun i => if off ≤ i ∧ i < off + data.length then data[i - off]? else g i

/-- Apply a list of `buffer_sub_data` calls in order. -/
def applyWrites {V : Type} (g : Nat → Option V) (ws : List (Nat × List V)) :
    Nat → Option V :=
  ws.foldl (fun acc w => writeGpu acc w.1 w.2) g

/-- The `buffer_sub_data` calls made on the growth path: the two `as_slices`
runs `a` and `b` are uploaded at running offsets `0` and `a.length`, skipping
empty slices. -/
def growWrites {V : Type} (a b : List V) : List (Nat × List V) :=
  (if a.isEmpty then [] else [(0, a)]) ++ (if b.isEmpty then [] else [(a.length, b)])

/-- The `buffer_sub_data` calls made on the incremental path: `data` is written
starting at element offset `hd`, split into two sub-writes where it would run
past the end of the GPU ring, skipping empty sub-writes. -/
def incWrites {V : Type} (cap hd : Nat) (data : List V) : List (Nat × List V) :=
  if data.isEmpty then []
  else
    let available := cap - hd
    let split := min data.length available
    let sa := data.take split
    let sb := data.drop split
    (if sa.isEmpty then [] else [(hd, sa)]) ++ (if sb.isEmpty then [] else [(0, sb)])

/-- The `Cow` selection in the incremental path of `PointRenderDeque::buffer`:
the last `pushed` elements of the host queue, taken from `as_slices` runs.
`splitLen` is the length of the first `as_slices` run (the host ring's internal
layout, which the repository treats as opaque); every branch yields the same
elements. -/
def syncVertices {V : Type} (splitLen : Nat) (buffer : List V) (pushed : Nat) :
    List V :=
  let n := buffer.length
  let sliceA := buffer.take splitLen
  let sliceB := buffer.drop splitLen
  if pushed ≤ sliceB.length then sliceB.drop (sliceB.length - pushed)
  else if sliceB.isEmpty then sliceA.drop (n - pushed)
  else buffer.drop (n - pushed)

/-- Growth path of `PointRenderDeque::buffer`: reallocate the GPU buffer to
`hostCap + 1` elements (wiping it), reset `tail`/`head`, upload the whole
content, clear the counters.  Also returns the `buffer_sub_data` calls made. -/
def growSync {V : Type} (splitLen : Nat) (s : DequeState V) :
    DequeState V × List (Nat × List V) :=
  let new_cap := s.hostCap + 1
  let n := s.buffer.length
  let a := s.buffer.take splitLen
  let b := s.buffer.drop splitLen
  let ws := growWrites a b
  ({ s with capacity := new_cap, tail := 0, head := n,
            gpu := applyWrites (fun _ => none) ws,
            pushed := 0, popped := 0 }, ws)

/-- Incremental path of `PointRenderDeque::buffer`: clamp the counters, advance
`tail`, upload the last `new_pushed` elements at `head` (split at the end of
the ring), advance `head`, clear the counters.  The `& (capacity - 1)` masking
is kept as in the source.  Also returns the `buffer_sub_data` calls made. -/
def incSync {V : Type} (splitLen : Nat) (s : DequeState V) :
    DequeState V × List (Nat × List V) :=
  let n := s.buffer.length
  let new_pushed := min s.pushed n
  let popped2 :=
    if new_pushed ≠ s.pushed then s.popped - (s.pushed - new_pushed)
    else s.popped
  let tail2 := (s.tail + popped2) &&& (s.capacity - 1)
  let vertices := syncVertices splitLen s.buffer new_pushed
  let ws := incWrites s.capacity s.head vertices
  let head2 := (s.head + new_pushed) &&& (s.capacity - 1)
  ({ s with tail := tail2, head := head2,
            gpu := applyWrites s.gpu ws,
            pushed := 0, popped := 0 }, ws)

/-- `PointRenderDeque::buffer` (the sync): growth path when the host
allocation plus one exceeds the GPU capacity, incremental path when any
operations are pending, otherwise only the counters are (re)cleared.
`splitLen` is the host ring's internal `as_slices` split. -/
def bufferSync {V : Type} (splitLen : Nat) (s : DequeState V) :
    DequeState V × List (Nat × List V) :=
  if s.capacity < s.hostCap + 1 then growSync splitLen s
  else if 0 < s.popped ∨ 0 < s.pushed then incSync splitLen s
  else ({ s with pushed := 0, popped := 0 }, [])

/-- The range draws `(first, count)` issued by `PointRenderDequeBinding::draw`:
one over `[tail, head)` when the content is contiguous, otherwise
`[tail, capacity)` then `[0, head)`, each skipped when empty. -/
def drawRanges {V : Type} (s : DequeState V) : List (Nat × Nat) :=
  if s.tail ≤ s.head then
    let points := s.head - s.tail
    if 0 < points then [(s.tail, points)] else []
  else
    (let points := s.capacity - s.tail
     if 0 < points then [(s.tail, points)] else []) ++
    (if 0 < s.head then [(0, s.head)] else [])

/-- Total number of points covered by the draws `draw()` issues. -/
def drawSum {V : Type} (s : DequeState V) : Nat :=
  ((drawRanges s).map Prod.snd).sum

/-- Length of the occupied GPU range, `(head - tail) mod capacity`. -/
def gpuLen {V : Type} (s : DequeState V) : Nat :=
  (s.head + s.capacity - s.tail) % s.capacity

/-- One client operation on the deque. -/
inductive Op (V : Type) where
  | push (v : V)
  | pop
  | sync (splitLen : Nat)

/-- Whether an operation is a sync. -/
def Op.isSync {V : Type} : Op V → Bool
  | .sync _ => true
  | _ => false

/-- Apply one operation to the state (for `pop`, the state component of
`pop_front_step`). -/
def step {V : Type} (s : DequeState V) : Op V → DequeState V
  | .push v => push_back s v
  | .pop => (pop_front_step s).1
  | .sync k => (bufferSync k s).1

/-- Run a list of operations from a state. -/
def run {V : Type} (s : DequeState V) (ops : List (Op V)) : DequeState V :=
  ops.foldl step s

/-- An operation respects the caller contract: `pop_front` only on a
non-empty queue (otherwise the Rust code panics). -/
def validOp {V : Type} (s : DequeState V) : Op V → Bool
  | .pop => !s.buffer.isEmpty
  | _ => true

/-- A list of operations respects the caller contract along its execution. -/
def validFrom {V : Type} (s : DequeState V) : List (Op V) → Bool
  | [] => true
  | op :: rest => validOp s op && validFrom (step s op) rest

/-- `k` pushes (of a fixed value). -/
def pushN (k : Nat) : List (Op Nat) :=
  List.replicate k (Op.push 0)

/-- `k` pops. -/
def popN (k : Nat) : List (Op Nat) :=
  List.replicate k Op.pop

/-- The GPU context's array-binding state (`VERTEX_ARRAY_BINDING_OES`):
which vertex array object, if any, is currently bound. -/
structure GlState where
  boundVertexArray : Option Nat

/-- `bind_vertex_array_oes`. -/
def bindVertexArray (_gl : GlState) (v : Option Nat) : GlState :=
  { boundVertexArray := v }

/-- `PointRenderDequeBinding::new`: binds the deque's vertex array object. -/
def bindingNew (gl : GlState) (vao : Nat) : GlState :=
  bindVertexArray gl (some vao)

/-- `Drop for PointRenderDequeBinding`: unconditionally unbinds. -/
def bindingDrop (gl : GlState) : GlState :=
  bindVertexArray gl none

/-- The scope of a `PointRenderDequeBinding`: bind on entry, run the body
(which may end in an error, modelling an early exit), and run the drop glue on
every exit path.  Rust's ownership guarantees the drop runs however the scope
is left. -/
def withBinding {A E : Type} (gl : GlState) (vao : Nat)
    (body : GlState → GlState × Except E A) : GlState × Except E A :=
  let gl1 := bindingNew gl vao
  let r := body gl1
  (bindingDrop r.1, r.2)

end RenderDeque

namespace RenderDeque

/-- The allocation shape of the host `VecDeque`: its capacity is one less than
a power of two, at least `STARTING_CAP`.  This is the property the source's
`assert_eq!(new_cap, new_cap.next_power_of_two())` relies on. -/
def HostPow {V : Type} (s : DequeState V) : Prop :=
  ∃ k, 10 ≤ k ∧ s.hostCap + 1 = 2 ^ k

/-- Reachability invariant of a `PointRenderDeque` state: the allocation
shapes of host and GPU side, cursor bounds, and the mirror relation.  In
`mirror`, `old` is the host content at the last sync (still present in the
occupied GPU range) and `nw` the elements pushed since; the current host
content is what remains of `old ++ nw` after the pops since the last sync. -/
structure Inv {V : Type} (s : DequeState V) : Prop where
  hostPow : HostPow s
  lenLe : s.buffer.length ≤ s.hostCap
  capPow : s.capacity = 0 ∨ ∃ k, s.capacity = 2 ^ k
  geom : (0 < s.capacity ∧ s.tail < s.capacity ∧ s.head < s.capacity) ∨
         (s.capacity = 0 ∧ s.tail = 0 ∧ s.head = 0)
  mirror : ∃ old nw : List V,
    nw.length = s.pushed ∧
    s.popped ≤ old.length + nw.length ∧
    s.buffer = (old ++ nw).drop s.popped ∧
    old.length = gpuLen s ∧
    ∀ i, i < old.length → s.gpu ((s.tail + i) % s.capacity) = old[i]?

lemma applyWrites_nil {V : Type} (g : Nat → Option V) : applyWrites g [] = g := rfl

lemma applyWrites_cons {V : Type} (g : Nat → Option V) (off : Nat)
    (data : List V) (ws : List (Nat × List V)) :
    applyWrites g ((off, data) :: ws) = applyWrites (writeGpu g off data) ws := rfl

lemma writeGpu_eval {V : Type} (g : Nat → Option V) (off : Nat) (data : List V)
    (i : Nat) :
    writeGpu g off data i =
      if off ≤ i ∧ i < off + data.length then data[i - off]? else g i := rfl

/-- Every branch of the `Cow` selection yields the last `pushed` elements. -/
lemma syncVertices_eq {V : Type} (splitLen : Nat) (buffer : List V) (p : Nat)
    (hp : p ≤ buffer.length) :
    syncVertices splitLen buffer p = buffer.drop (buffer.length - p) := by
  unfold syncVertices
  simp only
  split_ifs with h1 h2
  · rcases le_or_lt splitLen buffer.length with hsl | hsl
    · rw [List.drop_drop]
      congr 1
      rw [List.length_drop] at h1 ⊢
      omega
    · have hB : buffer.drop splitLen = [] := List.drop_eq_nil_of_le (by omega)
      rw [List.length_drop] at h1
      have hp0 : p = 0 := by omega
      simp [hB, hp0, List.drop_length]
  · rw [List.isEmpty_iff, List.drop_eq_nil_iff] at h2
    rw [List.take_of_length_le h2]
  · rfl

lemma syncVertices_length {V : Type} (splitLen : Nat) (buffer : List V) (p : Nat)
    (hp : p ≤ buffer.length) :
    (syncVertices splitLen buffer p).length = p := by
  rw [syncVertices_eq splitLen buffer p hp, List.length_drop]
  omega

/-- The source's `& (capacity - 1)` mask is reduction mod the capacity. -/
lemma land_mask (x k : Nat) : x &&& (2 ^ k - 1) = x % 2 ^ k :=
  Nat.and_pow_two_sub_one_eq_mod x k

/-- Two indices less than a full ring apart land on distinct ring slots. -/
lemma mod_ne_of_lt {cap a b : Nat} (hab : a < b) (hd : b - a < cap) :
    a % cap ≠ b % cap := by
  intro h
  have hdvd : cap ∣ b - a := (Nat.modEq_iff_dvd' (le_of_lt hab)).mp h
  rcases Nat.eq_zero_or_pos (b - a) with h0 | hpos
  · omega
  · have := Nat.le_of_dvd hpos hdvd
    omega

lemma gpuLen_eval {cap tl hd : Nat} (ht : tl < cap) (hh : hd < cap) :
    (hd + cap - tl) % cap = if tl ≤ hd then hd - tl else hd + cap - tl := by
  rcases le_or_lt tl hd with h | h
  · rw [if_pos h]
    have h1 : hd + cap - tl = cap + (hd - tl) := by omega
    rw [h1, Nat.add_mod_left, Nat.mod_eq_of_lt (by omega)]
  · rw [if_neg (by omega)]
    exact Nat.mod_eq_of_lt (by omega)

/-- Recover `head` from `tail` and the occupied length. -/
lemma head_of_gpuLen {cap tl hd L : Nat} (ht : tl < cap) (hh : hd < cap)
    (hL : (hd + cap - tl) % cap = L) : (tl + L) % cap = hd := by
  rw [gpuLen_eval ht hh] at hL
  by_cases h : tl ≤ hd
  · rw [if_pos h] at hL
    have h2 : tl + L = hd := by omega
    rw [h2, Nat.mod_eq_of_lt hh]
  · rw [if_neg h] at hL
    have h2 : tl + L = hd + cap := by omega
    rw [h2, Nat.add_mod_right, Nat.mod_eq_of_lt hh]

/-- Compute the occupied length from `tail` and the advanced `head`. -/
lemma gpuLen_of_head {cap tl hd L : Nat} (ht : tl < cap) (hh : hd < cap)
    (hLcap : L < cap) (h : (tl + L) % cap = hd) : (hd + cap - tl) % cap = L := by
  rw [gpuLen_eval ht hh]
  rcases lt_or_le (tl + L) cap with hlt | hge
  · rw [Nat.mod_eq_of_lt hlt] at h
    rw [if_pos (by omega)]
    omega
  · rw [Nat.mod_eq_sub_mod hge, Nat.mod_eq_of_lt (by omega)] at h
    rw [if_neg (by omega)]
    omega

lemma gpuLen_lt {V : Type} (s : DequeState V) (hcap : 0 < s.capacity) :
    gpuLen s < s.capacity :=
  Nat.mod_lt _ hcap

end RenderDeque

namespace RenderDeque

lemma growWrites_nil_left {V : Type} (b : List V) :
    growWrites ([] : List V) b = if b.isEmpty then [] else [(0, b)] := by
  simp [growWrites]

lemma growWrites_cons {V : Type} (x : V) (a b : List V) :
    growWrites (x :: a) b =
      (0, x :: a) :: (if b.isEmpty then [] else [((x :: a).length, b)]) := by
  simp [growWrites]

/-- The growth-path uploads put the whole content at the start of the ring. -/
lemma growWrites_get {V : Type} (a b : List V) (g : Nat → Option V) (j : Nat)
    (hj : j < a.length + b.length) :
    applyWrites g (growWrites a b) j = (a ++ b)[j]? := by
  rcases a with _ | ⟨x, a⟩
  · rw [growWrites_nil_left]
    by_cases hb : b.isEmpty
    · rw [List.isEmpty_iff] at hb
      subst hb
      simp at hj
    · rw [if_neg hb, applyWrites_cons, applyWrites_nil, writeGpu_eval]
      simp only [List.length_nil, List.nil_append] at hj ⊢
      rw [if_pos ⟨Nat.zero_le _, by omega⟩]
      congr 1
  · rw [growWrites_cons]
    by_cases hb : b.isEmpty
    · rw [List.isEmpty_iff] at hb
      subst hb
      show applyWrites g [(0, x :: a)] j = ((x :: a) ++ [])[j]?
      rw [applyWrites_cons, applyWrites_nil, writeGpu_eval, List.append_nil]
      simp only [List.length_nil, Nat.add_zero] at hj
      rw [if_pos ⟨Nat.zero_le _, by omega⟩]
      congr 1
    · rw [if_neg hb, applyWrites_cons, applyWrites_cons, applyWrites_nil,
        writeGpu_eval, writeGpu_eval]
      rcases lt_or_le j (x :: a).length with hj1 | hj1
      · rw [if_neg (by omega)]
        rw [if_pos ⟨Nat.zero_le _, by omega⟩]
        rw [List.getElem?_append_left hj1]
        congr 1
      · rw [if_pos ⟨hj1, by omega⟩]
        rw [List.getElem?_append_right hj1]

lemma growWrites_length_le {V : Type} (a b : List V) :
    (growWrites a b).length ≤ 2 := by
  unfold growWrites
  split_ifs <;> simp

lemma isEmpty_false_iff {V : Type} (l : List V) : l.isEmpty = false ↔ l ≠ [] := by
  cases l <;> simp

/-- Shape of the incremental-path upload list when there is data to write. -/
lemma incWrites_eq {V : Type} (cap hd : Nat) (data : List V) (hne : data ≠ [])
    (hcap : hd < cap) :
    incWrites cap hd data =
      (hd, data.take (min data.length (cap - hd))) ::
      (if (data.drop (min data.length (cap - hd))).isEmpty then []
       else [(0, data.drop (min data.length (cap - hd)))]) := by
  have h1 : data.isEmpty = false := (isEmpty_false_iff data).mpr hne
  have h0 : 0 < data.length := List.length_pos.mpr hne
  have h2 : (data.take (min data.length (cap - hd))).isEmpty = false := by
    rw [isEmpty_false_iff, Ne, List.take_eq_nil_iff]
    push_neg
    exact ⟨by omega, hne⟩
  simp only [incWrites, h1, Bool.false_eq_true, if_false, h2, List.cons_append,
    List.nil_append]

lemma incWrites_length_le {V : Type} (cap hd : Nat) (data : List V) :
    (incWrites cap hd data).length ≤ 2 := by
  rcases data with _ | ⟨x, d⟩
  · simp [incWrites]
  · rcases Nat.lt_or_ge hd cap with hlt | hge
    · rw [incWrites_eq cap hd (x :: d) (by simp) hlt]
      split_ifs <;> simp
    · simp [incWrites, Nat.sub_eq_zero_of_le hge]

end RenderDeque

namespace RenderDeque

/-- Incremental-path uploads: the `j`-th element of the written data lands at
ring slot `(head + j) mod capacity`. -/
lemma incWrites_get_written {V : Type} (cap hd : Nat) (data : List V)
    (g : Nat → Option V) (hh : hd < cap) (hlen : data.length ≤ cap)
    (j : Nat) (hj : j < data.length) :
    applyWrites g (incWrites cap hd data) ((hd + j) % cap) = data[j]? := by
  have hne : data ≠ [] := by
    intro h
    subst h
    simp at hj
  rw [incWrites_eq cap hd data hne hh]
  have hsp_le : min data.length (cap - hd) ≤ cap - hd := Nat.min_le_right _ _
  have hsp_le2 : min data.length (cap - hd) ≤ data.length := Nat.min_le_left _ _
  by_cases hb : (data.drop (min data.length (cap - hd))).isEmpty
  · rw [List.isEmpty_iff, List.drop_eq_nil_iff] at hb
    have hspe : min data.length (cap - hd) = data.length := by omega
    rw [if_pos (by rw [List.isEmpty_iff, List.drop_eq_nil_iff]; omega)]
    rw [applyWrites_cons, applyWrites_nil, writeGpu_eval]
    have hi : (hd + j) % cap = hd + j := Nat.mod_eq_of_lt (by omega)
    rw [hi]
    rw [if_pos ⟨by omega, by rw [List.length_take]; omega⟩]
    have hidx : hd + j - hd = j := by omega
    rw [hidx]
    exact List.getElem?_take_of_lt (by omega)
  · rw [Bool.not_eq_true, isEmpty_false_iff] at hb
    have hlt : min data.length (cap - hd) < data.length := by
      rcases Nat.lt_or_ge (min data.length (cap - hd)) data.length with h | h
      · exact h
      · exact absurd (List.drop_eq_nil_of_le (by omega)) hb
    have hspe : min data.length (cap - hd) = cap - hd := by omega
    rw [if_neg (by rw [Bool.not_eq_true, isEmpty_false_iff]; exact hb)]
    rw [applyWrites_cons, applyWrites_cons, applyWrites_nil, writeGpu_eval]
    rcases lt_or_le j (min data.length (cap - hd)) with hj1 | hj2
    · have hi : (hd + j) % cap = hd + j := Nat.mod_eq_of_lt (by omega)
      rw [hi]
      rw [if_neg (by rw [List.length_drop]; omega)]
      rw [writeGpu_eval]
      rw [if_pos ⟨by omega, by rw [List.length_take]; omega⟩]
      have hidx : hd + j - hd = j := by omega
      rw [hidx]
      exact List.getElem?_take_of_lt (by omega)
    · have hge2 : cap ≤ hd + j := by omega
      have hi : (hd + j) % cap = j - min data.length (cap - hd) := by
        rw [Nat.mod_eq_sub_mod hge2, Nat.mod_eq_of_lt (by omega)]
        omega
      rw [hi]
      rw [if_pos ⟨Nat.zero_le _, by rw [List.length_drop]; omega⟩]
      simp only [Nat.sub_zero]
      rw [List.getElem?_drop]
      congr 1
      omega

/-- Incremental-path uploads leave every ring slot outside the written
window unchanged. -/
lemma incWrites_get_other {V : Type} (cap hd : Nat) (data : List V)
    (g : Nat → Option V) (hh : hd < cap) (hlen : data.length ≤ cap)
    (i : Nat) (hi : i < cap)
    (hout : ∀ j, j < data.length → i ≠ (hd + j) % cap) :
    applyWrites g (incWrites cap hd data) i = g i := by
  rcases eq_or_ne data [] with hd0 | hne
  · subst hd0
    simp [incWrites, applyWrites_nil]
  · rw [incWrites_eq cap hd data hne hh]
    have hsp_le : min data.length (cap - hd) ≤ cap - hd := Nat.min_le_right _ _
    have hsp_le2 : min data.length (cap - hd) ≤ data.length := Nat.min_le_left _ _
    have hnotin1 : ¬(hd ≤ i ∧ i < hd + (data.take (min data.length (cap - hd))).length) := by
      rw [List.length_take]
      rintro ⟨h1, h2⟩
      refine hout (i - hd) (by omega) ?_
      have he : hd + (i - hd) = i := by omega
      rw [he, Nat.mod_eq_of_lt hi]
    by_cases hb : (data.drop (min data.length (cap - hd))).isEmpty
    · rw [if_pos hb, applyWrites_cons, applyWrites_nil, writeGpu_eval, if_neg hnotin1]
    · have hlt : min data.length (cap - hd) < data.length := by
        rw [Bool.not_eq_true, isEmpty_false_iff] at hb
        rcases Nat.lt_or_ge (min data.length (cap - hd)) data.length with h | h
        · exact h
        · exact absurd (List.drop_eq_nil_of_le (by omega)) hb
      have hspe : min data.length (cap - hd) = cap - hd := by omega
      rw [if_neg hb]
      rw [applyWrites_cons, applyWrites_cons, applyWrites_nil, writeGpu_eval]
      have hnotin2 : ¬(0 ≤ i ∧ i < 0 + (data.drop (min data.length (cap - hd))).length) := by
        rw [List.length_drop]
        rintro ⟨-, h2⟩
        refine hout (i + (cap - hd)) (by omega) ?_
        have he : hd + (i + (cap - hd)) = cap + i := by omega
        rw [he, Nat.add_mod_left, Nat.mod_eq_of_lt hi]
      rw [if_neg hnotin2, writeGpu_eval, if_neg hnotin1]

end RenderDeque

namespace RenderDeque

lemma pop_front_step_nil {V : Type} (s : DequeState V) (h : s.buffer = []) :
    pop_front_step s = ({ s with popped := s.popped + 1 }, none) := by
  unfold pop_front_step
  rw [h]

lemma pop_front_step_cons {V : Type} (s : DequeState V) (x : V) (rest : List V)
    (h : s.buffer = x :: rest) :
    pop_front_step s =
      ({ s with popped := s.popped + 1, buffer := rest }, some x) := by
  unfold pop_front_step
  rw [h]

lemma inv_init (V : Type) : Inv (initState V) := by
  constructor
  · exact ⟨10, by omega, by norm_num [initState, STARTING_CAP]⟩
  · simp [initState]
  · exact Or.inl rfl
  · exact Or.inr ⟨rfl, rfl, rfl⟩
  · exact ⟨[], [], rfl, Nat.le_refl 0, rfl, rfl, fun i hi => absurd hi (Nat.not_lt_zero i)⟩

lemma inv_push {V : Type} {s : DequeState V} (h : Inv s) (v : V) :
    Inv (push_back s v) := by
  unfold push_back
  split_ifs with hcap
  · exact h
  · obtain ⟨k, hk10, hk⟩ := h.hostPow
    obtain ⟨old, nw, hnwlen, hpople, hbuf, holdlen, hmir⟩ := h.mirror
    have hlenle := h.lenLe
    constructor
    · unfold HostPow hostGrow
      simp only
      split_ifs with hlen
      · exact ⟨k, hk10, hk⟩
      · refine ⟨k + 1, by omega, ?_⟩
        rw [pow_succ]
        omega
    · show (s.buffer ++ [v]).length ≤ hostGrow s.buffer.length s.hostCap
      unfold hostGrow
      rw [List.length_append]
      split_ifs with hlen
      · simpa using hlen
      · simp only [List.length_singleton]
        omega
    · exact h.capPow
    · exact h.geom
    · refine ⟨old, nw ++ [v], ?_, ?_, ?_, holdlen, hmir⟩
      · rw [List.length_append, hnwlen]
        rfl
      · rw [List.length_append]
        simp only [List.length_singleton]
        omega
      · show s.buffer ++ [v] = (old ++ (nw ++ [v])).drop s.popped
        rw [← List.append_assoc, List.drop_append_eq_append_drop]
        have h0 : s.popped - (old ++ nw).length = 0 := by
          rw [List.length_append]
          omega
        rw [h0, List.drop_zero, ← hbuf]

lemma inv_pop {V : Type} {s : DequeState V} (h : Inv s) (hne : s.buffer ≠ []) :
    Inv (pop_front_step s).1 := by
  rcases hbuf' : s.buffer with _ | ⟨x, rest⟩
  · exact absurd hbuf' hne
  · rw [pop_front_step_cons s x rest hbuf']
    show Inv { s with popped := s.popped + 1, buffer := rest }
    obtain ⟨old, nw, hnwlen, hpople, hbuf, holdlen, hmir⟩ := h.mirror
    constructor
    · exact h.hostPow
    · show rest.length ≤ s.hostCap
      have hl := h.lenLe
      rw [hbuf'] at hl
      simp only [List.length_cons] at hl
      omega
    · exact h.capPow
    · exact h.geom
    · have hlt : s.popped < old.length + nw.length := by
        by_contra hge
        push_neg at hge
        have hnil : (old ++ nw).drop s.popped = [] :=
          List.drop_eq_nil_of_le (by rw [List.length_append]; omega)
        rw [← hbuf, hbuf'] at hnil
        exact List.noConfusion hnil
      refine ⟨old, nw, hnwlen, by show s.popped + 1 ≤ old.length + nw.length; omega, ?_, holdlen, hmir⟩
      show rest = (old ++ nw).drop (s.popped + 1)
      have ht : ((old ++ nw).drop s.popped).tail = (old ++ nw).drop (s.popped + 1) :=
        List.tail_drop _ _
      rw [← hbuf, hbuf'] at ht
      simpa using ht

end RenderDeque

namespace RenderDeque

lemma growSync_fst {V : Type} (splitLen : Nat) (s : DequeState V) :
    (growSync splitLen s).1 =
      { s with capacity := s.hostCap + 1, tail := 0, head := s.buffer.length,
               gpu := applyWrites (fun _ => none)
                 (growWrites (s.buffer.take splitLen) (s.buffer.drop splitLen)),
               pushed := 0, popped := 0 } := rfl

lemma growSync_snd {V : Type} (splitLen : Nat) (s : DequeState V) :
    (growSync splitLen s).2 =
      growWrites (s.buffer.take splitLen) (s.buffer.drop splitLen) := rfl

lemma incSync_fst {V : Type} (splitLen : Nat) (s : DequeState V) :
    (incSync splitLen s).1 =
      { s with
        tail := (s.tail +
          (if min s.pushed s.buffer.length ≠ s.pushed
           then s.popped - (s.pushed - min s.pushed s.buffer.length)
           else s.popped)) &&& (s.capacity - 1),
        head := (s.head + min s.pushed s.buffer.length) &&& (s.capacity - 1),
        gpu := applyWrites s.gpu
          (incWrites s.capacity s.head
            (syncVertices splitLen s.buffer (min s.pushed s.buffer.length))),
        pushed := 0, popped := 0 } := rfl

lemma incSync_snd {V : Type} (splitLen : Nat) (s : DequeState V) :
    (incSync splitLen s).2 =
      incWrites s.capacity s.head
        (syncVertices splitLen s.buffer (min s.pushed s.buffer.length)) := rfl

lemma inv_growSync {V : Type} {s : DequeState V} (h : Inv s) (splitLen : Nat) :
    Inv (growSync splitLen s).1 := by
  obtain ⟨k, hk10, hk⟩ := h.hostPow
  have hlen := h.lenLe
  rw [growSync_fst]
  constructor
  · exact ⟨k, hk10, hk⟩
  · exact hlen
  · exact Or.inr ⟨k, hk⟩
  · exact Or.inl ⟨Nat.succ_pos _, Nat.succ_pos _, Nat.lt_succ_of_le hlen⟩
  · refine ⟨s.buffer, [], rfl, Nat.zero_le _, by simp, ?_, ?_⟩
    · show s.buffer.length =
        (s.buffer.length + (s.hostCap + 1) - 0) % (s.hostCap + 1)
      rw [Nat.sub_zero, Nat.add_mod_right, Nat.mod_eq_of_lt (by omega)]
    · intro i hi
      show applyWrites (fun _ => none)
          (growWrites (s.buffer.take splitLen) (s.buffer.drop splitLen))
          ((0 + i) % (s.hostCap + 1)) = s.buffer[i]?
      have hi2 : (0 + i) % (s.hostCap + 1) = i := by
        rw [Nat.zero_add, Nat.mod_eq_of_lt (by omega)]
      rw [hi2]
      have hlen2 : i < (s.buffer.take splitLen).length + (s.buffer.drop splitLen).length := by
        rw [List.length_take, List.length_drop]
        omega
      rw [growWrites_get _ _ _ i hlen2, List.take_append_drop]

lemma inv_noop {V : Type} {s : DequeState V} (h : Inv s)
    (hpu : s.pushed = 0) (hpo : s.popped = 0) :
    Inv { s with pushed := 0, popped := 0 } := by
  obtain ⟨old, nw, hnwlen, hpople, hbuf, holdlen, hmir⟩ := h.mirror
  constructor
  · exact h.hostPow
  · exact h.lenLe
  · exact h.capPow
  · exact h.geom
  · refine ⟨old, nw, ?_, Nat.zero_le _, ?_, holdlen, hmir⟩
    · show nw.length = 0
      rw [hnwlen, hpu]
    · show s.buffer = (old ++ nw).drop 0
      rw [hpo] at hbuf
      exact hbuf

end RenderDeque

namespace RenderDeque

lemma inv_incSync {V : Type} {s : DequeState V} (h : Inv s)
    (hpath : s.hostCap + 1 ≤ s.capacity) (splitLen : Nat) :
    Inv (incSync splitLen s).1 := by
  obtain ⟨k, hk10, hk⟩ := h.hostPow
  obtain ⟨old, nw, hnwlen, hpople, hbuf, holdlen, hmir⟩ := h.mirror
  have hcap0 : 0 < s.capacity := by omega
  obtain ⟨m, hm⟩ : ∃ m, s.capacity = 2 ^ m := by
    rcases h.capPow with h0 | hx
    · omega
    · exact hx
  obtain ⟨hcap0', htail, hhead⟩ :
      0 < s.capacity ∧ s.tail < s.capacity ∧ s.head < s.capacity := by
    rcases h.geom with hg | hg
    · exact hg
    · omega
  have hlenle := h.lenLe
  have hncap : s.buffer.length < s.capacity := by omega
  have hmask : ∀ x : Nat, x &&& (s.capacity - 1) = x % s.capacity := by
    intro x
    rw [hm]
    exact land_mask x m
  have hnlen : s.buffer.length + s.popped = old.length + s.pushed := by
    have hlen2 : s.buffer.length = old.length + nw.length - s.popped := by
      rw [hbuf, List.length_drop, List.length_append]
    omega
  have holdlt : old.length < s.capacity := by
    rw [holdlen]
    exact gpuLen_lt s hcap0
  rw [incSync_fst]
  set np := min s.pushed s.buffer.length with hnp_def
  have hnp_n : np ≤ s.buffer.length := Nat.min_le_right _ _
  have hnp_p : np ≤ s.pushed := Nat.min_le_left _ _
  set q := s.popped - (s.pushed - np) with hq_def
  have hifq : (if np ≠ s.pushed then q else s.popped) = q := by
    rcases eq_or_ne np s.pushed with he | hne2
    · rw [if_neg (not_ne_iff.mpr he), hq_def, he]
      omega
    · rw [if_pos hne2]
  rw [hifq, hmask (s.tail + q), hmask (s.head + np)]
  have hkey1 : old.length + np = s.buffer.length + q := by omega
  have hkey2 : q ≤ old.length := by omega
  have hheadrel : (s.tail + old.length) % s.capacity = s.head := by
    apply head_of_gpuLen htail hhead
    unfold gpuLen at holdlen
    exact holdlen.symm
  have hvert : syncVertices splitLen s.buffer np
      = s.buffer.drop (s.buffer.length - np) :=
    syncVertices_eq splitLen s.buffer np hnp_n
  have hvlen : (syncVertices splitLen s.buffer np).length = np :=
    syncVertices_length splitLen s.buffer np hnp_n
  have hposrel : ((s.tail + q) % s.capacity + s.buffer.length) % s.capacity
      = (s.head + np) % s.capacity := by
    rw [Nat.mod_add_mod]
    rw [show s.tail + q + s.buffer.length = s.tail + old.length + np from by omega]
    rw [← hheadrel, Nat.mod_add_mod]
  constructor
  · exact ⟨k, hk10, hk⟩
  · exact hlenle
  · exact h.capPow
  · exact Or.inl ⟨hcap0, Nat.mod_lt _ hcap0, Nat.mod_lt _ hcap0⟩
  · refine ⟨s.buffer, [], rfl, Nat.zero_le _, by simp, ?_, ?_⟩
    · show s.buffer.length = ((s.head + np) % s.capacity + s.capacity
        - (s.tail + q) % s.capacity) % s.capacity
      exact (gpuLen_of_head (Nat.mod_lt _ hcap0) (Nat.mod_lt _ hcap0)
        hncap hposrel).symm
    · intro i hi
      show applyWrites s.gpu
          (incWrites s.capacity s.head (syncVertices splitLen s.buffer np))
          (((s.tail + q) % s.capacity + i) % s.capacity) = s.buffer[i]?
      have hpos : ((s.tail + q) % s.capacity + i) % s.capacity
          = (s.tail + (q + i)) % s.capacity := by
        rw [Nat.mod_add_mod, Nat.add_assoc]
      rw [hpos]
      rcases lt_or_le i (s.buffer.length - np) with hiold | hinew
      · have hple : np = s.pushed := by omega
        have hqpop : q = s.popped := by omega
        have hqi : q + i < old.length := by omega
        have hout : ∀ j, j < (syncVertices splitLen s.buffer np).length →
            (s.tail + (q + i)) % s.capacity ≠ (s.head + j) % s.capacity := by
          intro j hj hcontra
          rw [hvlen] at hj
          rw [← hheadrel, Nat.mod_add_mod, Nat.add_assoc] at hcontra
          exact mod_ne_of_lt (by omega) (by omega) hcontra
        rw [incWrites_get_other s.capacity s.head _ s.gpu hhead
          (by rw [hvlen]; omega) ((s.tail + (q + i)) % s.capacity)
          (Nat.mod_lt _ hcap0) hout]
        rw [hmir (q + i) hqi, hbuf, List.getElem?_drop,
          List.getElem?_append_left (by omega)]
        congr 1
        omega
      · have e2 : q + i = old.length + (i - (s.buffer.length - np)) := by omega
        rw [e2]
        have hposw : (s.tail + (old.length + (i - (s.buffer.length - np))))
            % s.capacity
            = (s.head + (i - (s.buffer.length - np))) % s.capacity := by
          rw [← hheadrel, Nat.mod_add_mod, Nat.add_assoc]
        rw [hposw]
        rw [incWrites_get_written s.capacity s.head _ s.gpu hhead
          (by rw [hvlen]; omega) (i - (s.buffer.length - np))
          (by rw [hvlen]; omega)]
        rw [hvert, List.getElem?_drop]
        congr 1
        omega

end RenderDeque

namespace RenderDeque

lemma inv_bufferSync {V : Type} {s : DequeState V} (h : Inv s) (splitLen : Nat) :
    Inv (bufferSync splitLen s).1 := by
  unfold bufferSync
  split_ifs with h1 h2
  · exact inv_growSync h splitLen
  · exact inv_incSync h (by omega) splitLen
  · push_neg at h2
    show Inv ({ s with pushed := 0, popped := 0 }, ([] : List (Nat × List V))).1
    exact inv_noop h (by omega) (by omega)

lemma bufferSync_pushed {V : Type} (splitLen : Nat) (s : DequeState V) :
    (bufferSync splitLen s).1.pushed = 0 := by
  unfold bufferSync
  split_ifs <;> rfl

lemma bufferSync_popped {V : Type} (splitLen : Nat) (s : DequeState V) :
    (bufferSync splitLen s).1.popped = 0 := by
  unfold bufferSync
  split_ifs <;> rfl

lemma bufferSync_cap {V : Type} (splitLen : Nat) (s : DequeState V) :
    s.capacity ≤ (bufferSync splitLen s).1.capacity ∧
      s.hostCap + 1 ≤ (bufferSync splitLen s).1.capacity := by
  unfold bufferSync
  split_ifs with h1 h2
  · show s.capacity ≤ s.hostCap + 1 ∧ s.hostCap + 1 ≤ s.hostCap + 1
    omega
  · show s.capacity ≤ s.capacity ∧ s.hostCap + 1 ≤ s.capacity
    omega
  · show s.capacity ≤ s.capacity ∧ s.hostCap + 1 ≤ s.capacity
    omega

lemma bufferSync_writes_le_two {V : Type} (splitLen : Nat) (s : DequeState V) :
    (bufferSync splitLen s).2.length ≤ 2 := by
  unfold bufferSync
  split_ifs
  · rw [growSync_snd]
    exact growWrites_length_le _ _
  · rw [incSync_snd]
    exact incWrites_length_le _ _ _
  · exact Nat.zero_le 2

/-- Capacity never decreases at any single step, valid or not. -/
lemma step_capacity_mono {V : Type} (s : DequeState V) (op : Op V) :
    s.capacity ≤ (step s op).capacity := by
  cases op with
  | push v =>
      show s.capacity ≤ (push_back s v).capacity
      unfold push_back
      split_ifs <;> exact Nat.le_refl _
  | pop =>
      show s.capacity ≤ (pop_front_step s).1.capacity
      rcases hb : s.buffer with _ | ⟨x, rest⟩
      · rw [pop_front_step_nil s hb]
      · rw [pop_front_step_cons s x rest hb]
  | sync splitLen =>
      exact (bufferSync_cap splitLen s).1

/-- The allocation-shape part of the invariant, preserved by every step,
valid or not. -/
def CapInv {V : Type} (s : DequeState V) : Prop :=
  HostPow s ∧ (s.capacity = 0 ∨ ∃ k, s.capacity = 2 ^ k)

lemma capInv_init (V : Type) : CapInv (initState V) :=
  ⟨⟨10, by omega, by norm_num [initState, STARTING_CAP]⟩, Or.inl rfl⟩

lemma capInv_step {V : Type} {s : DequeState V} (h : CapInv s) (op : Op V) :
    CapInv (step s op) := by
  obtain ⟨⟨k, hk10, hk⟩, hcap⟩ := h
  cases op with
  | push v =>
      show CapInv (push_back s v)
      unfold push_back
      split_ifs with hc
      · exact ⟨⟨k, hk10, hk⟩, hcap⟩
      · refine ⟨?_, hcap⟩
        unfold HostPow hostGrow
        simp only
        split_ifs with hlen
        · exact ⟨k, hk10, hk⟩
        · refine ⟨k + 1, by omega, ?_⟩
          rw [pow_succ]
          omega
  | pop =>
      rcases hb : s.buffer with _ | ⟨x, rest⟩
      · show CapInv (pop_front_step s).1
        rw [pop_front_step_nil s hb]
        exact ⟨⟨k, hk10, hk⟩, hcap⟩
      · show CapInv (pop_front_step s).1
        rw [pop_front_step_cons s x rest hb]
        exact ⟨⟨k, hk10, hk⟩, hcap⟩
  | sync splitLen =>
      show CapInv (bufferSync splitLen s).1
      unfold bufferSync
      split_ifs with h1 h2
      · rw [growSync_fst]
        exact ⟨⟨k, hk10, hk⟩, Or.inr ⟨k, hk⟩⟩
      · rw [incSync_fst]
        exact ⟨⟨k, hk10, hk⟩, hcap⟩
      · exact ⟨⟨k, hk10, hk⟩, hcap⟩

lemma capInv_run {V : Type} {s : DequeState V} (h : CapInv s) (ops : List (Op V)) :
    CapInv (run s ops) := by
  induction ops generalizing s with
  | nil => exact h
  | cons op rest ih => exact ih (capInv_step h op)

lemma run_capacity_mono {V : Type} (s : DequeState V) (ops : List (Op V)) :
    s.capacity ≤ (run s ops).capacity := by
  induction ops generalizing s with
  | nil => exact Nat.le_refl _
  | cons op rest ih =>
      exact Nat.le_trans (step_capacity_mono s op) (ih (step s op))

lemma run_append {V : Type} (s : DequeState V) (l1 l2 : List (Op V)) :
    run s (l1 ++ l2) = run (run s l1) l2 :=
  List.foldl_append _ _ _ _

lemma inv_run {V : Type} {s : DequeState V} (h : Inv s) (ops : List (Op V))
    (hv : validFrom s ops = true) : Inv (run s ops) := by
  induction ops generalizing s with
  | nil => exact h
  | cons op rest ih =>
      rw [validFrom, Bool.and_eq_true] at hv
      obtain ⟨hv1, hv2⟩ := hv
      refine ih ?_ hv2
      cases op with
      | push v => exact inv_push h v
      | pop =>
          refine inv_pop h ?_
          rw [validOp, Bool.not_eq_true'] at hv1
          exact (isEmpty_false_iff s.buffer).mp hv1
      | sync splitLen => exact inv_bufferSync h splitLen

end RenderDeque

namespace RenderDeque

lemma drawRanges_le {V : Type} (s : DequeState V) (h : s.tail ≤ s.head) :
    drawRanges s =
      if 0 < s.head - s.tail then [(s.tail, s.head - s.tail)] else [] := by
  unfold drawRanges
  rw [if_pos h]

lemma drawRanges_gt {V : Type} (s : DequeState V) (h : s.head < s.tail) :
    drawRanges s =
      (if 0 < s.capacity - s.tail then [(s.tail, s.capacity - s.tail)] else [])
        ++ (if 0 < s.head then [(0, s.head)] else []) := by
  unfold drawRanges
  rw [if_neg (show ¬(s.tail ≤ s.head) by omega)]

/-- The lengths of the draws issued by `draw()` add up to the occupied GPU
range length. -/
lemma drawSum_eq_gpuLen {V : Type} (s : DequeState V)
    (hgeom : (0 < s.capacity ∧ s.tail < s.capacity ∧ s.head < s.capacity) ∨
             (s.capacity = 0 ∧ s.tail = 0 ∧ s.head = 0)) :
    drawSum s = gpuLen s := by
  rcases hgeom with ⟨hc, ht, hh⟩ | ⟨hc, ht, hh⟩
  · unfold drawSum gpuLen
    rw [gpuLen_eval ht hh]
    rcases le_or_lt s.tail s.head with hle | hlt
    · rw [drawRanges_le s hle, if_pos hle]
      split_ifs with h1
      · simp
      · simp
        omega
    · rw [drawRanges_gt s hlt,
        if_neg (show ¬(s.tail ≤ s.head) by omega),
        if_pos (show 0 < s.capacity - s.tail by omega)]
      split_ifs with h2
      · simp
        omega
      · simp
        omega
  · unfold drawSum drawRanges gpuLen
    rw [hc, ht, hh]
    simp

/-- After the counters are cleared, the invariant says the GPU range is an
exact mirror of the host queue. -/
lemma inv_extract {V : Type} {t : DequeState V} (h : Inv t)
    (hpu : t.pushed = 0) (hpo : t.popped = 0) :
    gpuLen t = t.buffer.length ∧
    (∀ i, i < t.buffer.length → t.gpu ((t.tail + i) % t.capacity) = t.buffer[i]?) := by
  obtain ⟨old, nw, hnwlen, hpople, hbuf, holdlen, hmir⟩ := h.mirror
  have hnw : nw = [] := List.length_eq_zero.mp (by rw [hnwlen, hpu])
  subst hnw
  rw [hpo, List.append_nil, List.drop_zero] at hbuf
  constructor
  · rw [hbuf]
    exact holdlen.symm
  · intro i hi
    rw [hbuf] at hi ⊢
    exact hmir i hi

lemma run_cons {V : Type} (s : DequeState V) (op : Op V) (rest : List (Op V)) :
    run s (op :: rest) = run (step s op) rest := rfl

lemma run_nil {V : Type} (s : DequeState V) : run s [] = s := rfl

lemma step_push {V : Type} (s : DequeState V) (v : V) :
    step s (Op.push v) = push_back s v := rfl

lemma pushN_succ (k : Nat) : pushN (k + 1) = Op.push 0 :: pushN k := by
  unfold pushN
  rw [List.replicate_succ]

lemma popN_succ (k : Nat) : popN (k + 1) = Op.pop :: popN k := by
  unfold popN
  rw [List.replicate_succ]

lemma run_pushN (k : Nat) : ∀ s : DequeState Nat,
    s.buffer.length + k ≤ HARD_CAP →
    (run s (pushN k)).buffer = s.buffer ++ List.replicate k 0 ∧
    (run s (pushN k)).pushed = s.pushed + k ∧
    (run s (pushN k)).popped = s.popped ∧
    (run s (pushN k)).capacity = s.capacity ∧
    (run s (pushN k)).tail = s.tail ∧
    (run s (pushN k)).head = s.head ∧
    (s.buffer.length + k ≤ s.hostCap → (run s (pushN k)).hostCap = s.hostCap) := by
  induction k with
  | zero =>
      intro s h
      refine ⟨by simp [pushN, run], rfl, rfl, rfl, rfl, rfl, fun _ => rfl⟩
  | succ k ih =>
      intro s h
      rw [pushN_succ, run_cons]
      have hlt : ¬ (HARD_CAP ≤ s.buffer.length) := by
        unfold HARD_CAP at h ⊢
        omega
      have hs' : step s (Op.push 0) =
          { s with pushed := s.pushed + 1, buffer := s.buffer ++ [0],
                   hostCap := hostGrow s.buffer.length s.hostCap } := by
        show push_back s 0 = _
        unfold push_back
        rw [if_neg hlt]
      rw [hs']
      obtain ⟨ib, ip, ipo, ic, it, ihd, ihc⟩ :=
        ih { s with pushed := s.pushed + 1, buffer := s.buffer ++ [0],
                    hostCap := hostGrow s.buffer.length s.hostCap }
          (by simp only [List.length_append, List.length_singleton]; omega)
      refine ⟨?_, ?_, ipo, ic, it, ihd, ?_⟩
      · rw [ib]
        show (s.buffer ++ [0]) ++ List.replicate k 0
          = s.buffer ++ List.replicate (k + 1) 0
        rw [List.append_assoc, List.replicate_succ]
        rfl
      · rw [ip]
        show s.pushed + 1 + k = s.pushed + (k + 1)
        omega
      · intro hcap
        have hgrow : hostGrow s.buffer.length s.hostCap = s.hostCap := by
          unfold hostGrow
          rw [if_pos (by omega)]
        have hlen2 : (s.buffer ++ [0]).length + k ≤ hostGrow s.buffer.length s.hostCap := by
          rw [hgrow]
          simp only [List.length_append, List.length_singleton]
          omega
        rw [ihc hlen2]
        exact hgrow

end RenderDeque

namespace RenderDeque

lemma run_popN (j : Nat) : ∀ s : DequeState Nat, j ≤ s.buffer.length →
    (run s (popN j)).buffer = s.buffer.drop j ∧
    (run s (popN j)).popped = s.popped + j ∧
    (run s (popN j)).pushed = s.pushed ∧
    (run s (popN j)).capacity = s.capacity ∧
    (run s (popN j)).tail = s.tail ∧
    (run s (popN j)).head = s.head ∧
    (run s (popN j)).hostCap = s.hostCap := by
  induction j with
  | zero =>
      intro s h
      refine ⟨by simp [popN, run], rfl, rfl, rfl, rfl, rfl, rfl⟩
  | succ j ih =>
      intro s h
      rcases hb : s.buffer with _ | ⟨x, rest⟩
      · rw [hb] at h
        simp at h
      · rw [popN_succ, run_cons]
        have hs' : step s Op.pop =
            { s with popped := s.popped + 1, buffer := rest } := by
          show (pop_front_step s).1 = _
          rw [pop_front_step_cons s x rest hb]
        rw [hs']
        obtain ⟨ib, ipo, ip, ic, it, ihd, ihc⟩ :=
          ih { s with popped := s.popped + 1, buffer := rest }
            (by show j ≤ rest.length
                rw [hb] at h
                simp only [List.length_cons] at h
                omega)
        refine ⟨?_, ?_, ip, ic, it, ihd, ihc⟩
        · rw [ib]
          rfl
        · rw [ipo]
          show s.popped + 1 + j = s.popped + (j + 1)
          omega

lemma run_pushRange : ∀ n : Nat, n ≤ HARD_CAP →
    (run (initState Nat) ((List.range n).map Op.push)).buffer = List.range n ∧
    (run (initState Nat) ((List.range n).map Op.push)).pushed = n := by
  intro n
  induction n with
  | zero => intro _; simp [run, initState]
  | succ n ih =>
      intro hn
      obtain ⟨ib, ip⟩ := ih (by omega)
      rw [List.range_succ, List.map_append, run_append]
      simp only [List.map_cons, List.map_nil]
      have hlen : (run (initState Nat) ((List.range n).map Op.push)).buffer.length
          < HARD_CAP := by
        rw [ib, List.length_range]
        omega
      have hone : run (run (initState Nat) ((List.range n).map Op.push))
          [Op.push n]
          = push_back (run (initState Nat) ((List.range n).map Op.push)) n := rfl
      rw [hone]
      unfold push_back
      rw [if_neg (by omega)]
      constructor
      · show (run (initState Nat) ((List.range n).map Op.push)).buffer ++ [n]
          = List.range n ++ [n]
        rw [ib]
      · show (run (initState Nat) ((List.range n).map Op.push)).pushed + 1 = n + 1
        rw [ip]

end RenderDeque

namespace RenderDeque

/-- C1: for every contract-respecting sequence of push_back/pop_front/sync
operations from a fresh deque, immediately after a further sync both pending
counters are zero, the occupied GPU range length `(head - tail) mod capacity`
equals the host queue length at sync time, and the draw-range lengths a
subsequent `draw()` would issue sum to that same length. -/
theorem C1_sync_counters_range_draw (ops : List (Op Nat)) (splitLen : Nat)
    (hv : validFrom (initState Nat) ops = true) :
    (bufferSync splitLen (run (initState Nat) ops)).1.pushed = 0 ∧
    (bufferSync splitLen (run (initState Nat) ops)).1.popped = 0 ∧
    gpuLen (bufferSync splitLen (run (initState Nat) ops)).1
      = (bufferSync splitLen (run (initState Nat) ops)).1.buffer.length ∧
    drawSum (bufferSync splitLen (run (initState Nat) ops)).1
      = (bufferSync splitLen (run (initState Nat) ops)).1.buffer.length := by
  have hinv : Inv (run (initState Nat) ops) := inv_run (inv_init Nat) ops hv
  have hinv2 : Inv (bufferSync splitLen (run (initState Nat) ops)).1 :=
    inv_bufferSync hinv splitLen
  have hpu := bufferSync_pushed splitLen (run (initState Nat) ops)
  have hpo := bufferSync_popped splitLen (run (initState Nat) ops)
  obtain ⟨hlen, _⟩ := inv_extract hinv2 hpu hpo
  refine ⟨hpu, hpo, hlen, ?_⟩
  rw [drawSum_eq_gpuLen _ hinv2.geom, hlen]

theorem C1_witness :
    validFrom (initState Nat)
      [Op.push 10, Op.push 20, Op.sync 2, Op.pop, Op.push 30] = true ∧
    ((bufferSync 1 (run (initState Nat)
        [Op.push 10, Op.push 20, Op.sync 2, Op.pop, Op.push 30])).1.pushed = 0 ∧
     (bufferSync 1 (run (initState Nat)
        [Op.push 10, Op.push 20, Op.sync 2, Op.pop, Op.push 30])).1.popped = 0 ∧
     gpuLen (bufferSync 1 (run (initState Nat)
        [Op.push 10, Op.push 20, Op.sync 2, Op.pop, Op.push 30])).1
       = (bufferSync 1 (run (initState Nat)
        [Op.push 10, Op.push 20, Op.sync 2, Op.pop, Op.push 30])).1.buffer.length ∧
     drawSum (bufferSync 1 (run (initState Nat)
        [Op.push 10, Op.push 20, Op.sync 2, Op.pop, Op.push 30])).1
       = (bufferSync 1 (run (initState Nat)
        [Op.push 10, Op.push 20, Op.sync 2, Op.pop, Op.push 30])).1.buffer.length) :=
  ⟨by decide, C1_sync_counters_range_draw
    [Op.push 10, Op.push 20, Op.sync 2, Op.pop, Op.push 30] 1 (by decide)⟩

/-- C2: after every sync on a contract-respecting trace, reading the GPU
buffer at slots `tail, tail+1, …, head-1` (mod capacity) yields exactly the
host queue's elements in order, and the sync issued at most two sub-writes. -/
theorem C2_gpu_mirrors_host (ops : List (Op Nat)) (splitLen : Nat)
    (hv : validFrom (initState Nat) ops = true) :
    (∀ i, i < (bufferSync splitLen (run (initState Nat) ops)).1.buffer.length →
      (bufferSync splitLen (run (initState Nat) ops)).1.gpu
          (((bufferSync splitLen (run (initState Nat) ops)).1.tail + i)
            % (bufferSync splitLen (run (initState Nat) ops)).1.capacity)
        = (bufferSync splitLen (run (initState Nat) ops)).1.buffer[i]?) ∧
    (bufferSync splitLen (run (initState Nat) ops)).2.length ≤ 2 := by
  have hinv : Inv (run (initState Nat) ops) := inv_run (inv_init Nat) ops hv
  have hinv2 : Inv (bufferSync splitLen (run (initState Nat) ops)).1 :=
    inv_bufferSync hinv splitLen
  obtain ⟨_, hmir⟩ := inv_extract hinv2
    (bufferSync_pushed splitLen (run (initState Nat) ops))
    (bufferSync_popped splitLen (run (initState Nat) ops))
  exact ⟨hmir, bufferSync_writes_le_two splitLen (run (initState Nat) ops)⟩

theorem C2_witness :
    validFrom (initState Nat)
      [Op.push 1, Op.push 2, Op.push 3, Op.sync 2, Op.pop, Op.pop, Op.push 4] = true ∧
    ((∀ i, i < (bufferSync 0 (run (initState Nat)
        [Op.push 1, Op.push 2, Op.push 3, Op.sync 2, Op.pop, Op.pop, Op.push 4])).1.buffer.length →
      (bufferSync 0 (run (initState Nat)
        [Op.push 1, Op.push 2, Op.push 3, Op.sync 2, Op.pop, Op.pop, Op.push 4])).1.gpu
          (((bufferSync 0 (run (initState Nat)
        [Op.push 1, Op.push 2, Op.push 3, Op.sync 2, Op.pop, Op.pop, Op.push 4])).1.tail + i)
            % (bufferSync 0 (run (initState Nat)
        [Op.push 1, Op.push 2, Op.push 3, Op.sync 2, Op.pop, Op.pop, Op.push 4])).1.capacity)
        = (bufferSync 0 (run (initState Nat)
        [Op.push 1, Op.push 2, Op.push 3, Op.sync 2, Op.pop, Op.pop, Op.push 4])).1.buffer[i]?) ∧
    (bufferSync 0 (run (initState Nat)
        [Op.push 1, Op.push 2, Op.push 3, Op.sync 2, Op.pop, Op.pop, Op.push 4])).2.length ≤ 2) :=
  ⟨by decide, C2_gpu_mirrors_host
    [Op.push 1, Op.push 2, Op.push 3, Op.sync 2, Op.pop, Op.pop, Op.push 4] 0 (by decide)⟩

/-- C3: across any operation sequence (even one that would panic in Rust),
the GPU capacity at the end is 0 or a power of two, and it never decreases
between a prefix and the full sequence. -/
theorem C3_capacity_monotone_pow2 (ops1 ops2 : List (Op Nat)) :
    ((run (initState Nat) (ops1 ++ ops2)).capacity = 0 ∨
      ∃ k, (run (initState Nat) (ops1 ++ ops2)).capacity = 2 ^ k) ∧
    (run (initState Nat) ops1).capacity
      ≤ (run (initState Nat) (ops1 ++ ops2)).capacity := by
  constructor
  · exact (capInv_run (capInv_init Nat) (ops1 ++ ops2)).2
  · rw [run_append]
    exact run_capacity_mono _ ops2

/-- C7: pop_front fails (returns no element) exactly on the empty queue, and
on a non-empty queue removes and returns the oldest element. -/
theorem C7_pop_front_iff_empty (V : Type) (s : DequeState V) :
    (pop_front_step s).2 = s.buffer.head? ∧
    (pop_front_step s).1.buffer = s.buffer.tail ∧
    ((pop_front_step s).2 = none ↔ s.buffer = []) := by
  rcases hb : s.buffer with _ | ⟨x, rest⟩
  · rw [pop_front_step_nil s hb]
    simp [hb]
  · rw [pop_front_step_cons s x rest hb]
    simp [hb]

/-- C8: whenever a scoped draw binding's scope is exited, normally or through
an early (error) exit, the array-binding object ends up unbound, and the
unbinding does not alter the body's outcome. -/
theorem C8_scope_exit_unbinds (A E : Type) (gl : GlState) (vao : Nat)
    (body : GlState → GlState × Except E A) :
    (withBinding gl vao body).1.boundVertexArray = none ∧
    (withBinding gl vao body).2 = (body (bindingNew gl vao)).2 :=
  ⟨rfl, rfl⟩

/-- C9: pop_front on an empty queue increments the pending-popped counter
before its failure, so the failing call still changes the state. -/
theorem C9_pop_empty_mutates (V : Type) (s : DequeState V)
    (h : s.buffer = []) :
    (pop_front_step s).2 = none ∧
    (pop_front_step s).1.popped = s.popped + 1 ∧
    (pop_front_step s).1 ≠ s := by
  rw [pop_front_step_nil s h]
  refine ⟨rfl, rfl, ?_⟩
  intro hcontra
  have hc : s.popped + 1 = s.popped := congrArg DequeState.popped hcontra
  omega

theorem C9_witness :
    (pop_front_step (initState Nat)).2 = none ∧
    (pop_front_step (initState Nat)).1.popped = (initState Nat).popped + 1 ∧
    (pop_front_step (initState Nat)).1 ≠ initState Nat :=
  C9_pop_empty_mutates Nat (initState Nat) rfl

end RenderDeque

namespace RenderDeque

/-- C6: push_back is a silent no-op (whole state unchanged) once the length
reaches the hard cap of 1,000,000, and otherwise appends the element and
increments the pending-push counter; consequently 1,000,001 pushes of
distinct values from empty leave exactly 1,000,000 elements, with the
1,000,001st value absent. -/
theorem C6_push_back_hard_cap :
    (∀ (V : Type) (s : DequeState V) (v : V),
      if HARD_CAP ≤ s.buffer.length then push_back s v = s
      else (push_back s v).buffer = s.buffer ++ [v]
        ∧ (push_back s v).pushed = s.pushed + 1) ∧
    (run (initState Nat) ((List.range (HARD_CAP + 1)).map Op.push)).buffer.length
      = HARD_CAP ∧
    HARD_CAP ∉ (run (initState Nat) ((List.range (HARD_CAP + 1)).map Op.push)).buffer := by
  obtain ⟨hb, hp⟩ := run_pushRange HARD_CAP (Nat.le_refl _)
  have hsplit : (List.range (HARD_CAP + 1)).map (Op.push (V := Nat))
      = (List.range HARD_CAP).map Op.push ++ [Op.push HARD_CAP] := by
    rw [List.range_succ, List.map_append]
    simp
  have hfull : run (initState Nat) ((List.range (HARD_CAP + 1)).map Op.push)
      = run (initState Nat) ((List.range HARD_CAP).map Op.push) := by
    rw [hsplit, run_append, run_cons, run_nil, step_push]
    unfold push_back
    rw [if_pos (show HARD_CAP ≤ (run (initState Nat)
      ((List.range HARD_CAP).map Op.push)).buffer.length
      by rw [hb, List.length_range])]
  refine ⟨?_, ?_, ?_⟩
  · intro V s v
    split_ifs with hc
    · unfold push_back
      rw [if_pos hc]
    · unfold push_back
      rw [if_neg hc]
      exact ⟨rfl, rfl⟩
  · rw [hfull, hb, List.length_range]
  · rw [hfull, hb]
    simp

lemma run_nosync_capacity (ops : List (Op Nat)) :
    ∀ s : DequeState Nat, (∀ op ∈ ops, op.isSync = false) → s.capacity = 0 →
    (run s ops).capacity = 0 := by
  induction ops with
  | nil =>
      intro s _ h
      exact h
  | cons op rest ih =>
      intro s hno h0
      rw [run_cons]
      refine ih (step s op) (fun o ho => hno o (List.mem_cons_of_mem _ ho)) ?_
      have hop := hno op (List.mem_cons_self _ _)
      cases op with
      | push v =>
          show (push_back s v).capacity = 0
          unfold push_back
          split_ifs
          · exact h0
          · exact h0
      | pop =>
          show (pop_front_step s).1.capacity = 0
          rcases hbuf : s.buffer with _ | ⟨x, rest2⟩
          · rw [pop_front_step_nil s hbuf]
            exact h0
          · rw [pop_front_step_cons s x rest2 hbuf]
            exact h0
      | sync k =>
          simp [Op.isSync] at hop

/-- C10: on any trace of pushes/pops with no sync, the GPU capacity stays 0;
the next sync then always takes the growth path and allocates at least
`STARTING_CAP + 1 = 1024` elements, even for a never-pushed empty queue,
because the target is the host allocation plus one. -/
theorem C10_first_sync_allocates (ops : List (Op Nat)) (splitLen : Nat)
    (hno : ∀ op ∈ ops, op.isSync = false) :
    (run (initState Nat) ops).capacity = 0 ∧
    (run (initState Nat) ops).capacity
      < (bufferSync splitLen (run (initState Nat) ops)).1.capacity ∧
    STARTING_CAP + 1 ≤ (bufferSync splitLen (run (initState Nat) ops)).1.capacity ∧
    (bufferSync 0 (initState Nat)).1.capacity = STARTING_CAP + 1 := by
  have hc0 : (run (initState Nat) ops).capacity = 0 :=
    run_nosync_capacity ops (initState Nat) hno rfl
  have hcap := (bufferSync_cap splitLen (run (initState Nat) ops)).2
  obtain ⟨k, hk10, hk⟩ := (capInv_run (capInv_init Nat) ops).1
  have h1024 : STARTING_CAP + 1 ≤ (run (initState Nat) ops).hostCap + 1 := by
    rw [hk]
    calc STARTING_CAP + 1 = 2 ^ 10 := by norm_num [STARTING_CAP]
    _ ≤ 2 ^ k := Nat.pow_le_pow_right (by norm_num) hk10
  exact ⟨hc0, by omega, by omega, by decide⟩

theorem C10_witness :
    (∀ op ∈ [Op.push 3, Op.pop], Op.isSync op = false) ∧
    ((run (initState Nat) [Op.push 3, Op.pop]).capacity = 0 ∧
     (run (initState Nat) [Op.push 3, Op.pop]).capacity
       < (bufferSync 0 (run (initState Nat) [Op.push 3, Op.pop])).1.capacity ∧
     STARTING_CAP + 1
       ≤ (bufferSync 0 (run (initState Nat) [Op.push 3, Op.pop])).1.capacity ∧
     (bufferSync 0 (initState Nat)).1.capacity = STARTING_CAP + 1) :=
  ⟨by decide, C10_first_sync_allocates [Op.push 3, Op.pop] 0 (by decide)⟩

end RenderDeque

namespace RenderDeque

lemma step_sync {V : Type} (s : DequeState V) (k : Nat) :
    step s (Op.sync k) = (bufferSync k s).1 := rfl

lemma step_pop {V : Type} (s : DequeState V) :
    step s Op.pop = (pop_front_step s).1 := rfl

/-- C4 counterexample: push one element, sync, then push one element and pop
one element (one push then one pop since the last sync, the claim's `k = 1`).
The next sync is not a no-op: it performs a GPU write and moves both `tail`
and `head`. -/
theorem C4_counterexample :
    (bufferSync 0 (run (initState Nat)
        [Op.push 0, Op.sync 0, Op.push 1, Op.pop])).2 ≠ [] ∧
    (bufferSync 0 (run (initState Nat)
        [Op.push 0, Op.sync 0, Op.push 1, Op.pop])).1.tail
      ≠ (run (initState Nat) [Op.push 0, Op.sync 0, Op.push 1, Op.pop]).tail ∧
    (bufferSync 0 (run (initState Nat)
        [Op.push 0, Op.sync 0, Op.push 1, Op.pop])).1.head
      ≠ (run (initState Nat) [Op.push 0, Op.sync 0, Op.push 1, Op.pop]).head :=
  ⟨by decide, by decide, by decide⟩

lemma sync_empty_start_noop {V : Type} (splitLen : Nat) (t : DequeState V)
    (hbuf : t.buffer = []) (hcap : t.capacity = 0)
    (htail : t.tail = 0) (hhead : t.head = 0) :
    (bufferSync splitLen t).2 = [] ∧
    (bufferSync splitLen t).1.tail = t.tail ∧
    (bufferSync splitLen t).1.head = t.head := by
  have hx : bufferSync splitLen t = growSync splitLen t := by
    unfold bufferSync
    rw [if_pos (by rw [hcap]; exact Nat.succ_pos _)]
  rw [hx, growSync_snd, growSync_fst]
  refine ⟨?_, ?_, ?_⟩
  · rw [hbuf]
    simp [growWrites]
  · show 0 = t.tail
    rw [htail]
  · show t.buffer.length = t.head
    rw [hbuf, hhead]
    rfl

/-- C4 (amended): if, before any sync has run, `k ≤ 1,000,000` elements are
pushed and then all `k` popped, the first sync performs zero `buffer_sub_data`
writes and leaves `tail` and `head` unchanged; and in general the incremental
path clamps the counters as `new_pushed = min(pending_pushed, n)`, advancing
`head` by `new_pushed` and `tail` by `pending_popped` reduced (saturating) by
the amount the push count was clamped. -/
theorem C4_clamp_and_prefix_cancel (k splitLen : Nat) (s : DequeState Nat)
    (hk : k ≤ HARD_CAP)
    (hpath : s.hostCap + 1 ≤ s.capacity)
    (hpend : 0 < s.popped ∨ 0 < s.pushed)
    (hpow : ∃ m, s.capacity = 2 ^ m) :
    ((bufferSync splitLen (run (initState Nat) (pushN k ++ popN k))).2 = [] ∧
     (bufferSync splitLen (run (initState Nat) (pushN k ++ popN k))).1.tail
       = (run (initState Nat) (pushN k ++ popN k)).tail ∧
     (bufferSync splitLen (run (initState Nat) (pushN k ++ popN k))).1.head
       = (run (initState Nat) (pushN k ++ popN k)).head) ∧
    ((bufferSync splitLen s).1.head
       = (s.head + min s.pushed s.buffer.length) % s.capacity ∧
     (bufferSync splitLen s).1.tail
       = (s.tail + (s.popped - (s.pushed - min s.pushed s.buffer.length)))
         % s.capacity) := by
  constructor
  · obtain ⟨ib1, ip1, ipo1, ic1, it1, ihd1, _⟩ :=
      run_pushN k (initState Nat) (by simpa [initState] using hk)
    have hlen1 : (run (initState Nat) (pushN k)).buffer.length = k := by
      rw [ib1]
      simp [initState]
    obtain ⟨ib2, ipo2, ip2, ic2, it2, ihd2, _⟩ :=
      run_popN k (run (initState Nat) (pushN k)) (le_of_eq hlen1.symm)
    rw [run_append]
    exact sync_empty_start_noop splitLen _
      (by rw [ib2]; exact List.drop_eq_nil_of_le (le_of_eq hlen1))
      (by rw [ic2, ic1]; rfl)
      (by rw [it2, it1]; rfl)
      (by rw [ihd2, ihd1]; rfl)
  · have hx : bufferSync splitLen s = incSync splitLen s := by
      unfold bufferSync
      rw [if_neg (by omega), if_pos hpend]
    obtain ⟨m, hm⟩ := hpow
    have hmask : ∀ x : Nat, x &&& (s.capacity - 1) = x % s.capacity := by
      intro x
      rw [hm]
      exact land_mask x m
    rw [hx, incSync_fst]
    constructor
    · show (s.head + min s.pushed s.buffer.length) &&& (s.capacity - 1) = _
      rw [hmask]
    · show (s.tail +
          (if min s.pushed s.buffer.length ≠ s.pushed
           then s.popped - (s.pushed - min s.pushed s.buffer.length)
           else s.popped)) &&& (s.capacity - 1) = _
      rw [hmask]
      congr 2
      split_ifs with hx2
      · rfl
      · push_neg at hx2
        omega

theorem C4_witness :
    ((bufferSync 0 (run (initState Nat) (pushN 5 ++ popN 5))).2 = [] ∧
     (bufferSync 0 (run (initState Nat) (pushN 5 ++ popN 5))).1.tail
       = (run (initState Nat) (pushN 5 ++ popN 5)).tail ∧
     (bufferSync 0 (run (initState Nat) (pushN 5 ++ popN 5))).1.head
       = (run (initState Nat) (pushN 5 ++ popN 5)).head) ∧
    ((bufferSync 0 (run (initState Nat)
        [Op.push 0, Op.sync 0, Op.push 1, Op.pop])).1.head
       = ((run (initState Nat) [Op.push 0, Op.sync 0, Op.push 1, Op.pop]).head
          + min (run (initState Nat)
              [Op.push 0, Op.sync 0, Op.push 1, Op.pop]).pushed
            (run (initState Nat)
              [Op.push 0, Op.sync 0, Op.push 1, Op.pop]).buffer.length)
         % (run (initState Nat)
              [Op.push 0, Op.sync 0, Op.push 1, Op.pop]).capacity ∧
     (bufferSync 0 (run (initState Nat)
        [Op.push 0, Op.sync 0, Op.push 1, Op.pop])).1.tail
       = ((run (initState Nat) [Op.push 0, Op.sync 0, Op.push 1, Op.pop]).tail
          + ((run (initState Nat)
              [Op.push 0, Op.sync 0, Op.push 1, Op.pop]).popped
            - ((run (initState Nat)
                [Op.push 0, Op.sync 0, Op.push 1, Op.pop]).pushed
              - min (run (initState Nat)
                  [Op.push 0, Op.sync 0, Op.push 1, Op.pop]).pushed
                (run (initState Nat)
                  [Op.push 0, Op.sync 0, Op.push 1, Op.pop]).buffer.length)))
         % (run (initState Nat)
              [Op.push 0, Op.sync 0, Op.push 1, Op.pop]).capacity) :=
  C4_clamp_and_prefix_cancel 5 0
    (run (initState Nat) [Op.push 0, Op.sync 0, Op.push 1, Op.pop])
    (by decide) (by decide) (by decide) ⟨10, by decide⟩

end RenderDeque

namespace RenderDeque

/-- C5 counterexample: this code never produces a GPU capacity of 8.  Filling
a fresh queue with 8 elements and syncing allocates `STARTING_CAP + 1 = 1024`
elements, because the growth target comes from the host allocation, so the
claim's capacity-8 queue does not arise. -/
theorem C5_counterexample :
    (run (initState Nat) (pushN 8 ++ [Op.sync 0])).capacity = 1024 ∧
    (run (initState Nat) (pushN 8 ++ [Op.sync 0])).capacity ≠ 8 :=
  ⟨by decide, by decide⟩

/-- From a state holding 1023 elements with no GPU buffer yet (the situation
after 1023 pushes on a fresh queue): sync, pop 3, push 3, sync wraps the
write cursor past the end of the 1024-slot ring. -/
lemma C5_chain {A : DequeState Nat}
    (hbufA : A.buffer = List.replicate 1023 0)
    (hcapA : A.capacity = 0) (hhostA : A.hostCap = 1023) :
    (step (run (run (step A (Op.sync 0)) (popN 3)) (pushN 3)) (Op.sync 0)).head
      < (step (run (run (step A (Op.sync 0)) (popN 3)) (pushN 3)) (Op.sync 0)).tail ∧
    drawRanges (step (run (run (step A (Op.sync 0)) (popN 3)) (pushN 3)) (Op.sync 0))
      = [(3, 1021), (0, 2)] ∧
    drawSum (step (run (run (step A (Op.sync 0)) (popN 3)) (pushN 3)) (Op.sync 0))
      = 1023 ∧
    (step (run (run (step A (Op.sync 0)) (popN 3)) (pushN 3)) (Op.sync 0)).buffer.length
      = 1023 := by
  have hlenA : A.buffer.length = 1023 := by
    rw [hbufA, List.length_replicate]
  have hgB : bufferSync 0 A = growSync 0 A := by
    unfold bufferSync
    rw [if_pos (by rw [hcapA]; exact Nat.succ_pos _)]
  have hB : step A (Op.sync 0) = (growSync 0 A).1 := by
    rw [step_sync, hgB]
  rw [hB]
  have hBrec := growSync_fst 0 A
  have hcapB : (growSync 0 A).1.capacity = 1024 := by
    rw [hBrec]
    show A.hostCap + 1 = 1024
    rw [hhostA]
  have htailB : (growSync 0 A).1.tail = 0 := by
    rw [hBrec]
  have hheadB : (growSync 0 A).1.head = 1023 := by
    rw [hBrec]
    show A.buffer.length = 1023
    exact hlenA
  have hbufB : (growSync 0 A).1.buffer = List.replicate 1023 0 := by
    rw [hBrec]
    exact hbufA
  have hpushB : (growSync 0 A).1.pushed = 0 := by
    rw [hBrec]
  have hpopB : (growSync 0 A).1.popped = 0 := by
    rw [hBrec]
  have hhostB : (growSync 0 A).1.hostCap = 1023 := by
    rw [hBrec]
    exact hhostA
  obtain ⟨ib3, ipo3, ip3, ic3, it3, ihd3, ihc3⟩ :=
    run_popN 3 (growSync 0 A).1 (by rw [hbufB]; norm_num)
  have hlenC : (run (growSync 0 A).1 (popN 3)).buffer.length = 1020 := by
    rw [ib3, List.length_drop, hbufB, List.length_replicate]
  have hpopC : (run (growSync 0 A).1 (popN 3)).popped = 3 := by
    rw [ipo3, hpopB]
  have hpushC : (run (growSync 0 A).1 (popN 3)).pushed = 0 := by
    rw [ip3, hpushB]
  have hcapC : (run (growSync 0 A).1 (popN 3)).capacity = 1024 := by
    rw [ic3, hcapB]
  have htailC : (run (growSync 0 A).1 (popN 3)).tail = 0 := by
    rw [it3, htailB]
  have hheadC : (run (growSync 0 A).1 (popN 3)).head = 1023 := by
    rw [ihd3, hheadB]
  have hhostC : (run (growSync 0 A).1 (popN 3)).hostCap = 1023 := by
    rw [ihc3, hhostB]
  obtain ⟨ib4, ip4, ipo4, ic4, it4, ihd4, ihc4⟩ :=
    run_pushN 3 (run (growSync 0 A).1 (popN 3))
      (by rw [hlenC]; norm_num [HARD_CAP])
  have hlenD : (run (run (growSync 0 A).1 (popN 3)) (pushN 3)).buffer.length
      = 1023 := by
    rw [ib4, List.length_append, hlenC, List.length_replicate]
  have hpushD : (run (run (growSync 0 A).1 (popN 3)) (pushN 3)).pushed = 3 := by
    rw [ip4, hpushC]
  have hpopD : (run (run (growSync 0 A).1 (popN 3)) (pushN 3)).popped = 3 := by
    rw [ipo4, hpopC]
  have hcapD : (run (run (growSync 0 A).1 (popN 3)) (pushN 3)).capacity = 1024 := by
    rw [ic4, hcapC]
  have htailD : (run (run (growSync 0 A).1 (popN 3)) (pushN 3)).tail = 0 := by
    rw [it4, htailC]
  have hheadD : (run (run (growSync 0 A).1 (popN 3)) (pushN 3)).head = 1023 := by
    rw [ihd4, hheadC]
  have hhostD : (run (run (growSync 0 A).1 (popN 3)) (pushN 3)).hostCap = 1023 := by
    rw [ihc4 (by rw [hlenC, hhostC]), hhostC]
  have hgT : bufferSync 0 (run (run (growSync 0 A).1 (popN 3)) (pushN 3))
      = incSync 0 (run (run (growSync 0 A).1 (popN 3)) (pushN 3)) := by
    unfold bufferSync
    rw [if_neg (by rw [hcapD, hhostD]; norm_num),
      if_pos (Or.inl (by rw [hpopD]; norm_num))]
  have hT : step (run (run (growSync 0 A).1 (popN 3)) (pushN 3)) (Op.sync 0)
      = (incSync 0 (run (run (growSync 0 A).1 (popN 3)) (pushN 3))).1 := by
    rw [step_sync, hgT]
  rw [hT]
  have hTrec := incSync_fst 0 (run (run (growSync 0 A).1 (popN 3)) (pushN 3))
  have hmin : min (run (run (growSync 0 A).1 (popN 3)) (pushN 3)).pushed
      (run (run (growSync 0 A).1 (popN 3)) (pushN 3)).buffer.length = 3 := by
    rw [hpushD, hlenD]
    decide
  have htailT : (incSync 0 (run (run (growSync 0 A).1 (popN 3)) (pushN 3))).1.tail
      = 3 := by
    rw [hTrec]
    show ((run (run (growSync 0 A).1 (popN 3)) (pushN 3)).tail +
      (if min (run (run (growSync 0 A).1 (popN 3)) (pushN 3)).pushed
          (run (run (growSync 0 A).1 (popN 3)) (pushN 3)).buffer.length
          ≠ (run (run (growSync 0 A).1 (popN 3)) (pushN 3)).pushed
       then (run (run (growSync 0 A).1 (popN 3)) (pushN 3)).popped
         - ((run (run (growSync 0 A).1 (popN 3)) (pushN 3)).pushed
           - min (run (run (growSync 0 A).1 (popN 3)) (pushN 3)).pushed
              (run (run (growSync 0 A).1 (popN 3)) (pushN 3)).buffer.length)
       else (run (run (growSync 0 A).1 (popN 3)) (pushN 3)).popped))
      &&& ((run (run (growSync 0 A).1 (popN 3)) (pushN 3)).capacity - 1) = 3
    rw [hmin, hpushD, hpopD, htailD, hcapD]
    decide
  have hheadT : (incSync 0 (run (run (growSync 0 A).1 (popN 3)) (pushN 3))).1.head
      = 2 := by
    rw [hTrec]
    show ((run (run (growSync 0 A).1 (popN 3)) (pushN 3)).head +
      min (run (run (growSync 0 A).1 (popN 3)) (pushN 3)).pushed
        (run (run (growSync 0 A).1 (popN 3)) (pushN 3)).buffer.length)
      &&& ((run (run (growSync 0 A).1 (popN 3)) (pushN 3)).capacity - 1) = 2
    rw [hmin, hheadD, hcapD]
    decide
  have hcapT : (incSync 0 (run (run (growSync 0 A).1 (popN 3)) (pushN 3))).1.capacity
      = 1024 := by
    rw [hTrec]
    show (run (run (growSync 0 A).1 (popN 3)) (pushN 3)).capacity = 1024
    exact hcapD
  have hlenT : (incSync 0 (run (run (growSync 0 A).1 (popN 3)) (pushN 3))).1.buffer.length
      = 1023 := by
    rw [hTrec]
    show (run (run (growSync 0 A).1 (popN 3)) (pushN 3)).buffer.length = 1023
    exact hlenD
  have hdr : drawRanges (incSync 0 (run (run (growSync 0 A).1 (popN 3)) (pushN 3))).1
      = [(3, 1021), (0, 2)] := by
    rw [drawRanges_gt _ (by rw [hheadT, htailT]; norm_num)]
    rw [htailT, hheadT, hcapT]
    norm_num
  refine ⟨by rw [hheadT, htailT]; norm_num, hdr, ?_, hlenT⟩
  unfold drawSum
  rw [hdr]
  norm_num

end RenderDeque

namespace RenderDeque

/-- C5 (amended): at this code's scale — capacity 1024, the smallest it ever
allocates — filling a fresh queue with 1023 elements, syncing, popping 3 and
pushing 3 without an intervening growth, the next sync leaves `tail > head`
and a draw issues exactly the two range-draws `[tail, capacity)` and
`[0, head)` with combined length 1023; in general a draw issues at most one
range-draw of total length `head - tail` when `tail ≤ head`, and two
range-draws (one if `head = 0`) of total length `(capacity - tail) + head`
when `tail > head`. -/
theorem C5_wraparound_and_draw :
    ((run (initState Nat)
        (pushN 1023 ++ [Op.sync 0] ++ popN 3 ++ pushN 3 ++ [Op.sync 0])).head
      < (run (initState Nat)
        (pushN 1023 ++ [Op.sync 0] ++ popN 3 ++ pushN 3 ++ [Op.sync 0])).tail ∧
     drawRanges (run (initState Nat)
        (pushN 1023 ++ [Op.sync 0] ++ popN 3 ++ pushN 3 ++ [Op.sync 0]))
       = [(3, 1021), (0, 2)] ∧
     drawSum (run (initState Nat)
        (pushN 1023 ++ [Op.sync 0] ++ popN 3 ++ pushN 3 ++ [Op.sync 0])) = 1023 ∧
     (run (initState Nat)
        (pushN 1023 ++ [Op.sync 0] ++ popN 3 ++ pushN 3 ++ [Op.sync 0])).buffer.length
       = 1023) ∧
    (∀ t : DequeState Nat, t.tail ≤ t.head →
      (drawRanges t).length ≤ 1 ∧ drawSum t = t.head - t.tail) ∧
    (∀ t : DequeState Nat, t.head < t.tail → t.tail < t.capacity →
      (drawRanges t).length = (if t.head = 0 then 1 else 2) ∧
      drawSum t = (t.capacity - t.tail) + t.head) := by
  refine ⟨?_, ?_, ?_⟩
  · have hsplit : run (initState Nat)
        (pushN 1023 ++ [Op.sync 0] ++ popN 3 ++ pushN 3 ++ [Op.sync 0])
        = step (run (run (step (run (initState Nat) (pushN 1023)) (Op.sync 0))
            (popN 3)) (pushN 3)) (Op.sync 0) := by
      simp only [run_append, run_cons, run_nil]
    rw [hsplit]
    obtain ⟨ib1, ip1, ipo1, ic1, it1, ihd1, ihc1⟩ :=
      run_pushN 1023 (initState Nat) (by decide)
    refine C5_chain ?_ ?_ ?_
    · rw [ib1]
      show ([] : List Nat) ++ List.replicate 1023 0 = List.replicate 1023 0
      exact List.nil_append _
    · rw [ic1]
      rfl
    · rw [ihc1 (by decide)]
      rfl
  · intro t ht
    constructor
    · rw [drawRanges_le t ht]
      split_ifs <;> simp
    · unfold drawSum
      rw [drawRanges_le t ht]
      split_ifs with h1
      · simp
      · simp
        omega
  · intro t h1 h2
    have hct : 0 < t.capacity - t.tail := by omega
    rcases Nat.eq_zero_or_pos t.head with hh | hh
    · constructor
      · rw [drawRanges_gt t h1, if_pos hct, hh]
        simp
      · unfold drawSum
        rw [drawRanges_gt t h1, if_pos hct, hh]
        simp
    · constructor
      · rw [drawRanges_gt t h1, if_pos hct,
          if_neg (show ¬ t.head = 0 by omega), if_pos hh]
        simp
      · unfold drawSum
        rw [drawRanges_gt t h1, if_pos hct, if_pos hh]
        simp

theorem C5_witness :
    ((drawRanges (DequeState.mk 8 1 4 ([] : List Nat) 7 0 0 (fun _ => none))).length
        ≤ 1 ∧
     drawSum (DequeState.mk 8 1 4 ([] : List Nat) 7 0 0 (fun _ => none))
       = (DequeState.mk 8 1 4 ([] : List Nat) 7 0 0 (fun _ => none)).head
         - (DequeState.mk 8 1 4 ([] : List Nat) 7 0 0 (fun _ => none)).tail) ∧
    ((drawRanges (DequeState.mk 8 5 2 ([] : List Nat) 7 0 0 (fun _ => none))).length
        = (if (DequeState.mk 8 5 2 ([] : List Nat) 7 0 0 (fun _ => none)).head = 0
           then 1 else 2) ∧
     drawSum (DequeState.mk 8 5 2 ([] : List Nat) 7 0 0 (fun _ => none))
       = ((DequeState.mk 8 5 2 ([] : List Nat) 7 0 0 (fun _ => none)).capacity
          - (DequeState.mk 8 5 2 ([] : List Nat) 7 0 0 (fun _ => none)).tail)
         + (DequeState.mk 8 5 2 ([] : List Nat) 7 0 0 (fun _ => none)).head) :=
  ⟨C5_wraparound_and_draw.2.1 _ (by decide),
   C5_wraparound_and_draw.2.2 _ (by decide) (by decide)⟩

end RenderDeque

namespace RenderDeque

theorem C6_witness :
    (push_back (initState Nat) 7).buffer = (initState Nat).buffer ++ [7] ∧
    (push_back (initState Nat) 7).pushed = (initState Nat).pushed + 1 := by
  have h := C6_push_back_hard_cap.1 Nat (initState Nat) 7
  rw [if_neg (by decide)] at h
  exact h

theorem C7_witness :
    (pop_front_step (run (initState Nat) [Op.push 5])).2
      = (run (initState Nat) [Op.push 5]).buffer.head? ∧
    (pop_front_step (run (initState Nat) [Op.push 5])).1.buffer
      = (run (initState Nat) [Op.push 5]).buffer.tail ∧
    ((pop_front_step (run (initState Nat) [Op.push 5])).2 = none
      ↔ (run (initState Nat) [Op.push 5]).buffer = []) :=
  C7_pop_front_iff_empty Nat (run (initState Nat) [Op.push 5])

end RenderDeque
